import Mathlib

/-!
# canio: the transport adapter between a CAN driver and the ISO-TP layer

A shallow embedding of `drv/adapter.go` and `drv/mock_can_unix.go`.

Modelling conventions

* A Go channel is a record of its buffered values (oldest first), its capacity
  and its closed flag.  A `context.Context` is the boolean "Done is closed".
* A call is one atomic step: no other goroutine runs while it executes.
* A Go `select` chooses uniformly at random among the communications that can
  proceed.  The choice is an explicit argument (`pick`), so every function
  stays executable and a statement "for every execution" quantifies over it.
* In the timed `select` of `RxFunc` the timer case can proceed when the timer
  has already fired at the moment the `select` is evaluated; that too is an
  argument (`timerFired`).  When no case can proceed the goroutine parks, and
  with no other goroutine running only the timer can wake it.  `RxFuncExit`
  records through which case a call left and whether it parked.
* Go `int` is the 64-bit signed integer (`toInt`), `int32` the 32-bit one
  (`toInt32`); conversions wrap.
-/

namespace Drv

/-! ## Machine values -/

/-- Go `byte`. -/
abbrev Byte := Fin 256

/-- Go `uint32`. -/
abbrev Uint32 := Fin 4294967296

/-- Conversion to Go `int` (64-bit, wrapping). -/
def toInt (x : Int) : Int := (x + 2 ^ 63) % 2 ^ 64 - 2 ^ 63

/-- Conversion to Go `int32`. -/
def toInt32 (x : Int) : Int := (x + 2 ^ 31) % 2 ^ 32 - 2 ^ 31

/-- Go `make([]byte, n)`. -/
def makeBytes (n : Nat) : List Byte := List.replicate n 0

/-- Go builtin `copy(dst, src)`: the destination after the copy. -/
def goCopy (dst src : List Byte) : List Byte :=
  src.take dst.length ++ dst.drop src.length

/-- A Go `float64` argument: a finite value, an infinity, or NaN. -/
inductive GoFloat where
  | fin (q : ℚ)
  | posInf
  | negInf
  | nan
deriving DecidableEq

/-- The Go comparison `timeout <= 0`. -/
def GoFloat.leZero : GoFloat → Bool
  | .fin q => decide (q ≤ 0)
  | .posInf => false
  | .negInf => true
  | .nan => false

/-- A Go `error` value: a plain message, or a message wrapping another error
(`fmt.Errorf` with the `%w` verb). -/
inductive GoError where
  | msg (text : String)
  | wrap (text : String) (inner : GoError)
deriving DecidableEq

/-- Go `errors.Unwrap`. -/
def GoError.Unwrap : GoError → Option GoError
  | .msg _ => none
  | .wrap _ inner => some inner

/-- How a call that may park or crash ends. -/
inductive Outcome (α : Type) where
  | returned (a : α)
  | blocked
  | panicked
deriving DecidableEq

/-! ## Frames -/

/-- Modelled from the spec: the declaration of `UnifiedCANMessage` is not among
the source files.  `InjectRx` stores a `uint32`, a `byte`, a `[64]byte` and a
`bool` in its fields, so the Go struct holds a byte in `DLC` and exactly 64
bytes in `Data`.  The record is wider than the Go struct (an integer, a list);
`UnifiedCANMessage.Valid` singles out the values the Go struct can hold. -/
structure UnifiedCANMessage where
  ID : Uint32
  DLC : Int
  Data : List Byte
  IsFD : Bool
deriving DecidableEq

/-- The frame type `tp.CanMessage` of the ISO-TP package, with the fields the
adapter reads and writes. -/
structure CanMessage where
  ArbitrationId : Int
  Dlc : Int
  Data : List Byte
  ExtendedId : Bool
  IsFd : Bool
  BitrateSwitch : Bool
deriving DecidableEq

/-- `ToomossAdapter.toTpMessage` (adapter.go 90-112).  `none` is Go `nil`. -/
def toTpMessage (receivedMsg : UnifiedCANMessage) : Option CanMessage :=
  let payloadLength : Int := receivedMsg.DLC
  if payloadLength < 0 then
    none
  else
    let payloadLength : Int :=
      if payloadLength > (receivedMsg.Data.length : Int) then
        (receivedMsg.Data.length : Int)
      else payloadLength
    let data := goCopy (makeBytes payloadLength.toNat)
      (receivedMsg.Data.take payloadLength.toNat)
    some
      { ArbitrationId := toInt (receivedMsg.ID.val : Int)
        Dlc := payloadLength
        Data := data
        ExtendedId := false
        IsFd := receivedMsg.IsFD
        BitrateSwitch := false }

/-! ## Channels, `select`, the mock driver -/

/-- A buffered Go channel. -/
structure Chan (α : Type) where
  buf : List α
  cap : Nat
  closed : Bool
deriving DecidableEq

/-- The communication cases occurring in the `select` statements. -/
inductive SelectCase where
  | ctxDone
  | timer
  | recv
  | send
deriving DecidableEq

/-- Go `select`: one of the cases that can proceed, chosen by `pick`; `none`
when no case can proceed. -/
def selectReady (ready : List SelectCase) (pick : Nat) : Option SelectCase :=
  ready[pick % ready.length]?

/-- A receive can proceed when a value is buffered or the channel is closed. -/
def Chan.canRecv {α : Type} (c : Chan α) : Bool :=
  !c.buf.isEmpty || c.closed

/-- A send can proceed when the buffer has room, or the channel is closed (it
then proceeds by panicking). -/
def Chan.canSend {α : Type} (c : Chan α) : Bool :=
  decide (c.buf.length < c.cap) || c.closed

/-- The type `CanType` (mock_can_unix.go 12-17). -/
inductive CanType where
  | CAN
  | CANFD
deriving DecidableEq

/-- The struct `MockCAN`.  `done` is the state of `ctx.Done()`, `responder`
whether a responder function is registered, `spawned` the responder goroutines
started so far with their arguments. -/
structure MockCAN where
  rxChan : Chan UnifiedCANMessage
  done : Bool
  responder : Bool
  spawned : List (Int × List Byte)
deriving DecidableEq

/-- `NewCanMix` (mock_can_unix.go 30-37). -/
def NewCanMix (_canType : CanType) : MockCAN :=
  { rxChan := { buf := [], cap := 16, closed := false }
    done := false
    responder := false
    spawned := [] }

/-- `MockCAN.Stop` (mock_can_unix.go 42-45): cancel, then close the channel;
closing a closed channel panics. -/
def MockCAN.Stop (m : MockCAN) : Outcome MockCAN :=
  let m1 := { m with done := true }
  if m1.rxChan.closed then .panicked
  else .returned { m1 with rxChan := { m1.rxChan with closed := true } }

/-- `MockCAN.Write` (mock_can_unix.go 51-57). -/
def MockCAN.Write (m : MockCAN) (id : Int) (data : List Byte) :
    Option GoError × MockCAN :=
  if m.responder then
    let copyData := [] ++ data
    (none, { m with spawned := m.spawned ++ [(id, copyData)] })
  else (none, m)

/-- `MockCAN.SetResponder` (mock_can_unix.go 60-62). -/
def MockCAN.SetResponder (m : MockCAN) (fn : Bool) : MockCAN :=
  { m with responder := fn }

/-- `MockCAN.InjectRx` (mock_can_unix.go 65-78). -/
def MockCAN.InjectRx (m : MockCAN) (id : Uint32) (dlc : Byte) (data : List Byte)
    (isFD : Bool) (pick : Nat) : Outcome MockCAN :=
  let buf := goCopy (makeBytes 64) data
  let msg : UnifiedCANMessage :=
    { ID := id, DLC := (dlc.val : Int), Data := buf, IsFD := isFD }
  let ready :=
    (if m.done then [SelectCase.ctxDone] else []) ++
    (if m.rxChan.canSend then [SelectCase.send] else [])
  match selectReady ready pick with
  | none => .blocked
  | some .send =>
    if m.rxChan.closed then .panicked
    else .returned { m with rxChan := { m.rxChan with buf := m.rxChan.buf ++ [msg] } }
  | some _ => .returned m

/-- The scheduling facts a call of `RxFunc` depends on. -/
structure Sched where
  pick : Nat
  timerFired : Bool
deriving DecidableEq

/-- The body of a receive case: `receivedMsg, ok := <-t.rxChan`, then
`if !ok return nil`, else `return t.toTpMessage(receivedMsg)`. -/
def recvCase (m : MockCAN) : Option CanMessage × MockCAN :=
  match m.rxChan.buf with
  | [] => (none, m)
  | receivedMsg :: rest =>
    (toTpMessage receivedMsg, { m with rxChan := { m.rxChan with buf := rest } })

/-- The way a call of `RxFunc` leaves its `select`: through the case on
`ctx.Done()`, through the receive case, through `default` (poll only), or
through the timer case (timed wait only), where `parked` tells whether the
goroutine was suspended until the timer fired (no case could proceed when the
`select` was evaluated) or the timer had already fired. -/
inductive RxExit where
  | cancelled
  | received
  | dflt
  | timedOut (parked : Bool)
deriving DecidableEq

/-- Whether the call suspended the calling goroutine before returning. -/
def RxExit.parked : RxExit → Bool
  | .timedOut parked => parked
  | _ => false

/-- `ToomossAdapter.RxFunc` (adapter.go 57-88) for an adapter built over the
mock driver `m`: `t.driver.Context()` is `m.ctx` and `t.rxChan` is `m.rxChan`.
Returns the exit taken, the frame (`none` is `nil`) and the driver afterwards.
The poll `select` (59-69) has a `default` clause and takes it when no case can
proceed; the timed `select` (77-87) has none and parks until the timer fires. -/
def RxFuncExit (m : MockCAN) (timeout : GoFloat) (o : Sched) :
    RxExit × (Option CanMessage × MockCAN) :=
  if timeout.leZero then
    let ready :=
      (if m.done then [SelectCase.ctxDone] else []) ++
      (if m.rxChan.canRecv then [SelectCase.recv] else [])
    match selectReady ready o.pick with
    | some .recv => (.received, recvCase m)
    | some _ => (.cancelled, (none, m))
    | none => (.dflt, (none, m))
  else
    let ready :=
      (if m.done then [SelectCase.ctxDone] else []) ++
      (if o.timerFired then [SelectCase.timer] else []) ++
      (if m.rxChan.canRecv then [SelectCase.recv] else [])
    match selectReady ready o.pick with
    | some .recv => (.received, recvCase m)
    | some .timer => (.timedOut false, (none, m))
    | some _ => (.cancelled, (none, m))
    | none => (.timedOut true, (none, m))

/-- The result of `ToomossAdapter.RxFunc`: the frame returned (`none` is `nil`)
and the driver afterwards. -/
def RxFunc (m : MockCAN) (timeout : GoFloat) (o : Sched) :
    Option CanMessage × MockCAN :=
  (RxFuncExit m timeout o).2

/-- `MockCAN.Init` (mock_can_unix.go 39). -/
def MockCAN.Init (m : MockCAN) : Option GoError × MockCAN := (none, m)

/-- `MockCAN.Start` (mock_can_unix.go 40). -/
def MockCAN.Start (m : MockCAN) : MockCAN := m

/-- `MockCAN.RxChan` (mock_can_unix.go 47). -/
def MockCAN.RxChan (m : MockCAN) : Chan UnifiedCANMessage := m.rxChan

/-- `MockCAN.Context` (mock_can_unix.go 48): the state of `ctx.Done()`. -/
def MockCAN.Context (m : MockCAN) : Bool := m.done

/-! ## The driver interface and the adapter over it -/

/-- Modelled from the spec: the interface `CANDriver` is declared outside the
source files; these are the methods the adapter calls on it (spec section 6).
A driver is its method table over a state `σ`; `χ` is the type of the channel
value `RxChan()` hands out.  A method returns its Go results and the state
afterwards. -/
structure CANDriver (σ χ : Type) where
  Init : σ → Option GoError × σ
  Start : σ → σ
  Stop : σ → Outcome σ
  RxChan : σ → χ
  Context : σ → Bool
  Write : σ → Int → List Byte → Option GoError × σ

/-- The mock driver as a `CANDriver`. -/
def mockDriver : CANDriver MockCAN (Chan UnifiedCANMessage) :=
  { Init := MockCAN.Init
    Start := MockCAN.Start
    Stop := MockCAN.Stop
    RxChan := MockCAN.RxChan
    Context := MockCAN.Context
    Write := MockCAN.Write }

/-- A method call the adapter makes on its driver. -/
inductive DriverCall where
  | Init
  | Start
  | Stop
  | RxChan
  | Write (id : Int) (data : List Byte)
deriving DecidableEq

/-- The struct `ToomossAdapter`. -/
structure ToomossAdapter (σ χ : Type) where
  driver : CANDriver σ χ
  rxChan : χ

/-- What a call leaves behind: the driver state, the driver methods called (in
order) and the lines written with the `log` package. -/
structure Effects (σ : Type) where
  state : σ
  calls : List DriverCall
  logged : List String

/-- Go `err.Error()`. -/
def GoError.Error : GoError → String
  | .msg text => text
  | .wrap text _ => text

/-- Go `fmt.Errorf(text + ": %w", err)`. -/
def errorfWrap (text : String) (err : GoError) : GoError :=
  .wrap (text ++ ": " ++ err.Error) err

/-- `NewToomossAdapter` (adapter.go 21-37).  `dev = none` is the nil interface
value; the result is the Go pair `(*ToomossAdapter, error)` and the effects. -/
def NewToomossAdapter {σ χ : Type} (dev : Option (CANDriver σ χ)) (s : σ) :
    (Option (ToomossAdapter σ χ) × Option GoError) × Effects σ :=
  match dev with
  | none =>
    ((none, some (.msg "CAN driver instance cannot be nil")),
      { state := s, calls := [], logged := [] })
  | some d =>
    match d.Init s with
    | (some err, s1) =>
      ((none, some (errorfWrap "failed to initialize toomoss device" err)),
        { state := s1, calls := [.Init], logged := [] })
    | (none, s1) =>
      let s2 := d.Start s1
      let adapter : ToomossAdapter σ χ := { driver := d, rxChan := d.RxChan s2 }
      ((some adapter, none),
        { state := s2
          calls := [.Init, .Start, .RxChan]
          logged := ["Toomoss-Adapter created and device started successfully."] })

/-- `ToomossAdapter.Close` (adapter.go 40-43). -/
def ToomossAdapter.Close {σ χ : Type} (t : ToomossAdapter σ χ) (s : σ) :
    Outcome (Effects σ) :=
  match t.driver.Stop s with
  | .returned s1 =>
    .returned { state := s1, calls := [.Stop], logged := ["Closing Toomoss-Adapter..."] }
  | .blocked => .blocked
  | .panicked => .panicked

/-- `ToomossAdapter.TxFunc` (adapter.go 46-54).  The Go function has no result;
the model returns the effects of the call. -/
def ToomossAdapter.TxFunc {σ χ : Type} (t : ToomossAdapter σ χ) (s : σ)
    (msg : Option CanMessage) : Effects σ :=
  match msg with
  | none => { state := s, calls := [], logged := [] }
  | some msg =>
    match t.driver.Write s (toInt32 msg.ArbitrationId) msg.Data with
    | (some err, s1) =>
      { state := s1
        calls := [.Write (toInt32 msg.ArbitrationId) msg.Data]
        logged := ["ERROR: ToomossAdapter failed to send message: " ++ err.Error] }
    | (none, s1) =>
      { state := s1
        calls := [.Write (toInt32 msg.ArbitrationId) msg.Data]
        logged := [] }

/-! ## Runs of the mock driver -/

/-- One operation on a mock driver and the adapter over it. -/
inductive Op where
  | inject (id : Uint32) (dlc : Byte) (data : List Byte) (isFD : Bool) (pick : Nat)
  | rx (timeout : GoFloat) (o : Sched)
  | stop

/-- The driver after one operation; `none` when the operation panics.  A
parked `InjectRx` leaves the driver as it was. -/
def stepOp (m : MockCAN) : Op → Option MockCAN
  | .inject id dlc data isFD pick =>
    match m.InjectRx id dlc data isFD pick with
    | .returned m1 => some m1
    | .blocked => some m
    | .panicked => none
  | .rx timeout o => some (RxFunc m timeout o).2
  | .stop =>
    match m.Stop with
    | .returned m1 => some m1
    | _ => none

/-- The driver states reachable from `NewCanMix`. -/
inductive Reachable : MockCAN → Prop where
  | init (canType : CanType) : Reachable (NewCanMix canType)
  | step {m m1 : MockCAN} (op : Op) : Reachable m → stepOp m op = some m1 → Reachable m1

/-- Successive polls `RxFunc(timeout)`, one per scheduling record: the frames
returned, in call order, and the driver afterwards. -/
def pollAll (timeout : GoFloat) : MockCAN → List Sched → List (Option CanMessage) × MockCAN
  | m, [] => ([], m)
  | m, o :: os =>
    let r := RxFunc m timeout o
    let rest := pollAll timeout r.2 os
    (r.1 :: rest.1, rest.2)

/-! ## Derived states and runs used in the statements -/

/-- The driver after the oldest buffered frame has been taken. -/
def MockCAN.withBuf (m : MockCAN) (rest : List UnifiedCANMessage) : MockCAN :=
  { m with rxChan := { m.rxChan with buf := rest } }

/-- The operations of a list, one after the other. -/
def runOps : MockCAN → List Op → Option MockCAN
  | m, [] => some m
  | m, op :: ops => (stepOp m op).bind (fun m1 => runOps m1 ops)

/-- What holds in every reachable state of the mock driver. -/
structure MockInv (m : MockCAN) : Prop where
  cap_eq : m.rxChan.cap = 16
  len_le : m.rxChan.buf.length ≤ 16
  closed_eq : m.rxChan.closed = m.done

/-- The mock driver after `InjectRx(7, 1, [9], false)` and then `Stop`: the
cancellation signal is set, the channel is closed, one frame is still buffered. -/
def stoppedWithFrame : MockCAN :=
  { rxChan :=
      { buf := [{ ID := 7, DLC := 1, Data := goCopy (makeBytes 64) [9], IsFD := false }]
        cap := 16
        closed := true }
    done := true
    responder := false
    spawned := [] }

/-- A driver that is not cancelled with two frames queued, identifiers 1 then 2. -/
def twoQueued : MockCAN :=
  { rxChan :=
      { buf := [{ ID := 1, DLC := 1, Data := goCopy (makeBytes 64) [10], IsFD := false },
                { ID := 2, DLC := 2, Data := goCopy (makeBytes 64) [20, 21], IsFD := true }]
        cap := 16
        closed := false }
    done := false
    responder := false
    spawned := [] }

/-- The mock driver right after `NewCanMix` and `Stop`. -/
def stoppedEmpty : MockCAN :=
  { rxChan := { buf := [], cap := 16, closed := true }
    done := true
    responder := false
    spawned := [] }

/-- A mock driver whose 16 slots are taken. -/
def fullDriver : MockCAN :=
  (NewCanMix .CAN).withBuf
    (List.replicate 16 { ID := 1, DLC := 0, Data := goCopy (makeBytes 64) [], IsFD := false })

/-- A driver whose `Init` and `Write` fail; its state counts the calls made:
1 per `Init`, 10 per `Start`, 100 per `Write`. -/
def failingDriver : CANDriver Nat Unit :=
  { Init := fun s => (some (.msg "no device"), s + 1)
    Start := fun s => s + 10
    Stop := fun s => .returned s
    RxChan := fun _ => ()
    Context := fun _ => false
    Write := fun s _ _ => (some (.msg "bus off"), s + 100) }

/-! ## Auxiliary lemmas -/

theorem selectReady_nil (pick : Nat) : selectReady [] pick = none := by
  simp [selectReady]

theorem selectReady_single (c : SelectCase) (pick : Nat) :
    selectReady [c] pick = some c := by
  simp [selectReady, Nat.mod_one]

theorem selectReady_zero (c : SelectCase) (cs : List SelectCase) :
    selectReady (c :: cs) 0 = some c := by
  simp [selectReady]

theorem selectReady_cases (ready : List SelectCase) (pick : Nat) :
    (ready = [] ∧ selectReady ready pick = none) ∨
      ∃ c, c ∈ ready ∧ selectReady ready pick = some c := by
  cases ready with
  | nil => exact Or.inl ⟨rfl, selectReady_nil pick⟩
  | cons a as =>
    right
    have hlt : pick % (a :: as).length < (a :: as).length :=
      Nat.mod_lt _ (by simp)
    refine ⟨(a :: as)[pick % (a :: as).length], List.getElem_mem _, ?_⟩
    unfold selectReady
    exact List.getElem?_eq_getElem hlt

theorem toInt_of_range (x : Int) (h0 : -(2 ^ 63) ≤ x) (h1 : x < 2 ^ 63) : toInt x = x := by
  unfold toInt
  rw [Int.emod_eq_of_lt (by omega) (by omega)]
  omega

theorem toInt32_of_range (x : Int) (h0 : -(2 ^ 31) ≤ x) (h1 : x < 2 ^ 31) :
    toInt32 x = x := by
  unfold toInt32
  rw [Int.emod_eq_of_lt (by omega) (by omega)]
  omega

theorem toInt_uint32 (id : Uint32) : toInt (id.val : Int) = (id.val : Int) := by
  have h := id.isLt
  exact toInt_of_range _ (by omega) (by omega)

theorem goCopy_length (dst src : List Byte) : (goCopy dst src).length = dst.length := by
  simp [goCopy]
  omega

theorem goCopy_make_take (n : Nat) (l : List Byte) (h : n ≤ l.length) :
    goCopy (makeBytes n) (l.take n) = l.take n := by
  simp [goCopy, makeBytes, List.take_take, Nat.min_eq_left h]

/-- The buffer `InjectRx` builds: the data cut to 64 bytes, then zeros. -/
theorem goCopy_inject (data : List Byte) :
    goCopy (makeBytes 64) data = data.take 64 ++ List.replicate (64 - data.length) 0 := by
  simp only [goCopy, makeBytes, List.length_replicate, List.drop_replicate]

/-- What `toTpMessage` returns for a non-negative declared length. -/
theorem toTpMessage_nonneg (m : UnifiedCANMessage) (h : 0 ≤ m.DLC) :
    toTpMessage m = some
      { ArbitrationId := (m.ID.val : Int)
        Dlc := min m.DLC (m.Data.length : Int)
        Data := m.Data.take (min m.DLC (m.Data.length : Int)).toNat
        ExtendedId := false
        IsFd := m.IsFD
        BitrateSwitch := false } := by
  unfold toTpMessage
  simp only [not_lt.mpr h, if_false, toInt_uint32]
  by_cases hgt : m.DLC > (m.Data.length : Int)
  · have hmin : min m.DLC (m.Data.length : Int) = (m.Data.length : Int) :=
      min_eq_right (le_of_lt hgt)
    simp only [hgt, if_true, hmin, Int.toNat_ofNat]
    rw [goCopy_make_take _ _ (le_refl _)]
  · have hle : m.DLC ≤ (m.Data.length : Int) := not_lt.mp hgt
    have hmin : min m.DLC (m.Data.length : Int) = m.DLC := min_eq_left hle
    simp only [hgt, if_false, hmin]
    rw [goCopy_make_take _ _ (by omega)]

theorem recvCase_nil (m : MockCAN) (h : m.rxChan.buf = []) : recvCase m = (none, m) := by
  unfold recvCase
  rw [h]

theorem recvCase_cons (m : MockCAN) (f : UnifiedCANMessage) (rest : List UnifiedCANMessage)
    (h : m.rxChan.buf = f :: rest) : recvCase m = (toTpMessage f, m.withBuf rest) := by
  unfold recvCase MockCAN.withBuf
  rw [h]

/-- Every call of `RxFunc` either returns nil and leaves the driver as it was,
or takes the oldest buffered frame and returns its translation. -/
theorem RxFunc_cases (m : MockCAN) (timeout : GoFloat) (o : Sched) :
    RxFunc m timeout o = (none, m) ∨
      ∃ f rest, m.rxChan.buf = f :: rest ∧
        RxFunc m timeout o = (toTpMessage f, m.withBuf rest) := by
  have hrecv : recvCase m = (none, m) ∨
      ∃ f rest, m.rxChan.buf = f :: rest ∧ recvCase m = (toTpMessage f, m.withBuf rest) := by
    cases hb : m.rxChan.buf with
    | nil => exact Or.inl (recvCase_nil m hb)
    | cons f rest => exact Or.inr ⟨f, rest, rfl, recvCase_cons m f rest hb⟩
  unfold RxFunc RxFuncExit
  rcases Bool.eq_false_or_eq_true timeout.leZero with ht | ht
  · simp only [ht, if_true]
    generalize selectReady _ o.pick = c
    cases c with
    | none => exact Or.inl rfl
    | some c => cases c <;> first | exact hrecv | exact Or.inl rfl
  · simp only [ht, Bool.false_eq_true, if_false]
    generalize selectReady _ o.pick = c
    cases c with
    | none => exact Or.inl rfl
    | some c => cases c <;> first | exact hrecv | exact Or.inl rfl

/-- A poll on a driver that is not cancelled and has a frame buffered takes the
receive case. -/
theorem RxFunc_poll_head (m : MockCAN) (hdone : m.done = false) (f : UnifiedCANMessage)
    (rest : List UnifiedCANMessage) (hq : m.rxChan.buf = f :: rest) (timeout : GoFloat)
    (ht : timeout.leZero = true) (o : Sched) :
    RxFunc m timeout o = (toTpMessage f, m.withBuf rest) := by
  have hcan : m.rxChan.canRecv = true := by simp [Chan.canRecv, hq]
  unfold RxFunc RxFuncExit
  simp only [ht, if_true, hdone, hcan, Bool.false_eq_true, if_false, List.nil_append,
    selectReady_single]
  exact recvCase_cons m f rest hq

/-- A poll on a driver that is not cancelled, with nothing buffered and the
channel open, takes the default case. -/
theorem RxFunc_poll_idle (m : MockCAN) (hdone : m.done = false) (hq : m.rxChan.buf = [])
    (hopen : m.rxChan.closed = false) (timeout : GoFloat) (ht : timeout.leZero = true)
    (o : Sched) : RxFunc m timeout o = (none, m) := by
  have hcan : m.rxChan.canRecv = false := by simp [Chan.canRecv, hq, hopen]
  unfold RxFunc RxFuncExit
  simp only [ht, if_true, hdone, hcan, Bool.false_eq_true, if_false, List.nil_append,
    selectReady_nil]

/-- A poll on a driver that is not cancelled, with nothing buffered and the
channel open, leaves through `default`. -/
theorem RxFuncExit_poll_idle (m : MockCAN) (hdone : m.done = false) (hq : m.rxChan.buf = [])
    (hopen : m.rxChan.closed = false) (timeout : GoFloat) (ht : timeout.leZero = true)
    (o : Sched) : RxFuncExit m timeout o = (.dflt, (none, m)) := by
  have hcan : m.rxChan.canRecv = false := by simp [Chan.canRecv, hq, hopen]
  unfold RxFuncExit
  simp only [ht, if_true, hdone, hcan, Bool.false_eq_true, if_false, List.nil_append,
    selectReady_nil]

/-- A timed wait on the same kind of driver leaves through the timer case, and
parks unless the timer has already fired. -/
theorem RxFuncExit_timed_idle (m : MockCAN) (hdone : m.done = false) (hq : m.rxChan.buf = [])
    (hopen : m.rxChan.closed = false) (timeout : GoFloat) (ht : timeout.leZero = false)
    (o : Sched) : RxFuncExit m timeout o = (.timedOut (!o.timerFired), (none, m)) := by
  have hcan : m.rxChan.canRecv = false := by simp [Chan.canRecv, hq, hopen]
  unfold RxFuncExit
  simp only [ht, hdone, hcan, Bool.false_eq_true, if_false, List.nil_append, List.append_nil]
  cases o.timerFired with
  | false => simp only [Bool.false_eq_true, if_false, selectReady_nil, Bool.not_false]
  | true => simp only [if_true, selectReady_single, Bool.not_true]

/-- A poll never parks, whatever the driver state. -/
theorem RxFuncExit_poll_not_parked (m : MockCAN) (timeout : GoFloat)
    (ht : timeout.leZero = true) (o : Sched) : (RxFuncExit m timeout o).1.parked = false := by
  unfold RxFuncExit
  simp only [ht, if_true]
  generalize selectReady _ o.pick = c
  cases c with
  | none => rfl
  | some c => cases c <;> rfl

theorem pollAll_take (timeout : GoFloat) (ht : timeout.leZero = true) :
    ∀ (os : List Sched) (m : MockCAN) (fs : List UnifiedCANMessage), m.done = false →
      m.rxChan.buf = fs → os.length ≤ fs.length →
      pollAll timeout m os =
        ((fs.take os.length).map toTpMessage, m.withBuf (fs.drop os.length)) := by
  intro os
  induction os with
  | nil =>
    intro m fs _ hq _
    simp [pollAll, MockCAN.withBuf, ← hq]
  | cons o os ih =>
    intro m fs hdone hq hlen
    cases fs with
    | nil => simp at hlen
    | cons f rest =>
      have h1 := RxFunc_poll_head m hdone f rest hq timeout ht o
      have hlen1 : os.length ≤ rest.length := by simpa using hlen
      have h2 := ih (m.withBuf rest) rest (by simpa [MockCAN.withBuf] using hdone) rfl hlen1
      simp only [pollAll, h1, h2, List.length_cons, List.take_succ_cons, List.map_cons,
        List.drop_succ_cons]
      rfl

theorem mockInv_new (canType : CanType) : MockInv (NewCanMix canType) :=
  ⟨rfl, by simp [NewCanMix], rfl⟩

theorem mockInv_rx (m : MockCAN) (h : MockInv m) (timeout : GoFloat) (o : Sched) :
    MockInv (RxFunc m timeout o).2 := by
  rcases RxFunc_cases m timeout o with h1 | ⟨f, rest, hq, h1⟩
  · rw [h1]; exact h
  · rw [h1]
    have hl := h.len_le
    rw [hq] at hl
    exact ⟨h.cap_eq, by simp [MockCAN.withBuf] at *; omega, h.closed_eq⟩

theorem mockInv_stop (m m1 : MockCAN) (_h : MockInv m) (hs : m.Stop = .returned m1) :
    MockInv m1 := by
  unfold MockCAN.Stop at hs
  simp only at hs
  split at hs
  · cases hs
  · cases hs
    exact ⟨_h.cap_eq, _h.len_le, rfl⟩

theorem mockInv_inject (m m1 : MockCAN) (h : MockInv m) (id : Uint32) (dlc : Byte)
    (data : List Byte) (isFD : Bool) (pick : Nat)
    (hs : m.InjectRx id dlc data isFD pick = .returned m1) : MockInv m1 := by
  unfold MockCAN.InjectRx at hs
  simp only at hs
  split at hs
  · cases hs
  · rename_i hsel
    split at hs
    · cases hs
    · rename_i hopen
      cases hs
      rcases selectReady_cases _ pick with ⟨_, hnone⟩ | ⟨c, hc, hsome⟩
      · rw [hnone] at hsel; cases hsel
      · rw [hsome] at hsel
        cases hsel
        have hsend : m.rxChan.canSend = true := by
          by_contra hcs
          simp [hcs] at hc
        have hlt : m.rxChan.buf.length < m.rxChan.cap := by
          simpa [Chan.canSend, hopen] using hsend
        have hcap := h.cap_eq
        exact ⟨hcap, by simp; omega, h.closed_eq⟩
  · cases hs
    exact h

theorem reachable_inv (m : MockCAN) (h : Reachable m) : MockInv m := by
  induction h with
  | init canType => exact mockInv_new canType
  | step op _ hstep ih =>
    cases op with
    | inject id dlc data isFD pick =>
      simp only [stepOp] at hstep
      split at hstep
      · rename_i hi
        cases hstep
        exact mockInv_inject _ _ ih _ _ _ _ _ hi
      · cases hstep; exact ih
      · cases hstep
    | rx timeout o =>
      simp only [stepOp] at hstep
      cases hstep
      exact mockInv_rx _ ih timeout o
    | stop =>
      simp only [stepOp] at hstep
      split at hstep
      · rename_i hs
        cases hstep
        exact mockInv_stop _ _ ih hs
      · cases hstep

theorem InjectRx_room (m : MockCAN) (hdone : m.done = false) (hopen : m.rxChan.closed = false)
    (hroom : m.rxChan.buf.length < m.rxChan.cap) (id : Uint32) (dlc : Byte)
    (data : List Byte) (isFD : Bool) (pick : Nat) :
    m.InjectRx id dlc data isFD pick = .returned (m.withBuf (m.rxChan.buf ++
      [{ ID := id, DLC := (dlc.val : Int), Data := goCopy (makeBytes 64) data, IsFD := isFD }])) := by
  have hcan : m.rxChan.canSend = true := by simp [Chan.canSend, hroom]
  unfold MockCAN.InjectRx
  simp only [hdone, hcan, Bool.false_eq_true, if_false, if_true, List.nil_append,
    selectReady_single, hopen, MockCAN.withBuf]

theorem InjectRx_full (m : MockCAN) (hdone : m.done = false) (hopen : m.rxChan.closed = false)
    (hfull : m.rxChan.cap ≤ m.rxChan.buf.length) (id : Uint32) (dlc : Byte)
    (data : List Byte) (isFD : Bool) (pick : Nat) :
    m.InjectRx id dlc data isFD pick = .blocked := by
  have hcan : m.rxChan.canSend = false := by
    simp [Chan.canSend, hopen]
    omega
  unfold MockCAN.InjectRx
  simp only [hdone, hcan, Bool.false_eq_true, if_false, List.nil_append, selectReady_nil]

theorem InjectRx_stopped (m : MockCAN) (hdone : m.done = true) (hclosed : m.rxChan.closed = true)
    (id : Uint32) (dlc : Byte) (data : List Byte) (isFD : Bool) (pick : Nat) :
    m.InjectRx id dlc data isFD pick = .returned m ∨
      m.InjectRx id dlc data isFD pick = .panicked := by
  have hcan : m.rxChan.canSend = true := by simp [Chan.canSend, hclosed]
  unfold MockCAN.InjectRx
  simp only [hdone, hcan, if_true, hclosed]
  rcases selectReady_cases ([SelectCase.ctxDone] ++ [SelectCase.send]) pick with
    ⟨hnil, _⟩ | ⟨c, hc, hsome⟩
  · simp at hnil
  · rw [hsome]
    simp at hc
    rcases hc with rfl | rfl
    · exact Or.inl rfl
    · exact Or.inr rfl

theorem reachable_run : ∀ (ops : List Op) (m m1 : MockCAN), Reachable m →
    runOps m ops = some m1 → Reachable m1 := by
  intro ops
  induction ops with
  | nil =>
    intro m m1 hr h
    simp only [runOps] at h
    cases h
    exact hr
  | cons op ops ih =>
    intro m m1 hr h
    simp only [runOps] at h
    cases hs : stepOp m op with
    | none => rw [hs] at h; cases h
    | some m2 =>
      rw [hs] at h
      exact ih m2 m1 (Reachable.step op hr hs) h

/-! ## The claims -/

/-- C1 fails on the code.  After `InjectRx` and `Stop` on a new mock driver the
cancellation signal is set and the injected frame is still buffered.  In both
`select` statements of `RxFunc` the case on `ctx.Done()`, which is there to
return nil once the driver is cancelled, and the receive case can proceed, and
`select` gives the first no precedence: when the receive case is chosen
(scheduling choice 1) `RxFunc` returns the stale frame and removes it from the
queue, for a timeout of 0 and for a timeout of 1 second alike; when the
cancellation case is chosen (scheduling choice 0) it returns nil. -/
theorem rx_after_stop_returns_stale_frame :
    runOps (NewCanMix .CAN) [.inject 7 1 [9] false 0, .stop] = some stoppedWithFrame ∧
    stoppedWithFrame.done = true ∧
    (RxFunc stoppedWithFrame (.fin 0) ⟨1, false⟩).1 =
      some { ArbitrationId := 7, Dlc := 1, Data := [9], ExtendedId := false,
             IsFd := false, BitrateSwitch := false } ∧
    (RxFunc stoppedWithFrame (.fin 0) ⟨1, false⟩).2.rxChan.buf = [] ∧
    (RxFunc stoppedWithFrame (.fin 1) ⟨1, false⟩).1 =
      some { ArbitrationId := 7, Dlc := 1, Data := [9], ExtendedId := false,
             IsFd := false, BitrateSwitch := false } ∧
    (RxFunc stoppedWithFrame (.fin 1) ⟨1, false⟩).2.rxChan.buf = [] ∧
    RxFunc stoppedWithFrame (.fin 0) ⟨0, false⟩ = (none, stoppedWithFrame) ∧
    RxFunc stoppedWithFrame (.fin 1) ⟨0, false⟩ = (none, stoppedWithFrame) := by
  refine ⟨by decide, by decide, by decide, by decide, by decide, by decide, by decide,
    by decide⟩

/-- C3.  On a driver whose cancellation signal is not set, whose inbound queue
is empty and whose channel is open, `RxFunc` with any timeout `<= 0` leaves its
`select` through `default`: it returns nil without parking the caller (no wait
on the timer, the channel or the context) and leaves the driver state (queue,
cancellation flag, channel) unchanged. -/
theorem rx_poll_empty (m : MockCAN) (hdone : m.done = false) (hq : m.rxChan.buf = [])
    (hopen : m.rxChan.closed = false) (timeout : GoFloat) (ht : timeout.leZero = true)
    (o : Sched) :
    RxFuncExit m timeout o = (.dflt, (none, m)) ∧
    (RxFuncExit m timeout o).1.parked = false ∧
    RxFunc m timeout o = (none, m) :=
  ⟨RxFuncExit_poll_idle m hdone hq hopen timeout ht o,
    RxFuncExit_poll_not_parked m timeout ht o,
    RxFunc_poll_idle m hdone hq hopen timeout ht o⟩

/-- Witness of C3 at a new mock driver and timeout 0. -/
theorem rx_poll_empty_witness :
    (NewCanMix .CAN).done = false ∧ (NewCanMix .CAN).rxChan.buf = [] ∧
    (NewCanMix .CAN).rxChan.closed = false ∧ (GoFloat.fin 0).leZero = true ∧
    RxFuncExit (NewCanMix .CAN) (.fin 0) ⟨3, true⟩ = (.dflt, (none, NewCanMix .CAN)) :=
  ⟨rfl, rfl, rfl, by decide,
    (rx_poll_empty (NewCanMix .CAN) rfl rfl rfl (.fin 0) (by decide) ⟨3, true⟩).1⟩

/-- C4.  On a driver that is not cancelled and whose queue holds `f1 :: rest`,
a poll returns the translation of `f1` and leaves exactly `rest`; `k` successive
polls (`k` at most the number of queued frames) return the translations of the
first `k` frames in queue order and leave the remaining frames in order, so in
particular as many polls as frames return all of them and empty the queue. -/
theorem rx_poll_fifo (m : MockCAN) (hdone : m.done = false) (f1 : UnifiedCANMessage)
    (rest : List UnifiedCANMessage) (hq : m.rxChan.buf = f1 :: rest) (timeout : GoFloat)
    (ht : timeout.leZero = true) :
    (∀ o, RxFunc m timeout o = (toTpMessage f1, m.withBuf rest)) ∧
    (∀ os : List Sched, os.length ≤ (f1 :: rest).length →
      pollAll timeout m os =
        (((f1 :: rest).take os.length).map toTpMessage,
          m.withBuf ((f1 :: rest).drop os.length))) ∧
    (∀ os : List Sched, os.length = (f1 :: rest).length →
      pollAll timeout m os = ((f1 :: rest).map toTpMessage, m.withBuf [])) := by
  refine ⟨fun o => RxFunc_poll_head m hdone f1 rest hq timeout ht o,
    fun os hlen => pollAll_take timeout ht os m (f1 :: rest) hdone hq hlen, ?_⟩
  intro os hlen
  have h := pollAll_take timeout ht os m (f1 :: rest) hdone hq (le_of_eq hlen)
  rw [h, hlen, List.take_length, List.drop_length]

/-- Witness of C4: two polls on `twoQueued` return frame 1, then frame 2. -/
theorem rx_poll_fifo_witness :
    twoQueued.done = false ∧ (GoFloat.fin 0).leZero = true ∧
    (pollAll (.fin 0) twoQueued [⟨0, false⟩, ⟨5, true⟩]).1 =
      [some { ArbitrationId := 1, Dlc := 1, Data := [10], ExtendedId := false,
              IsFd := false, BitrateSwitch := false },
       some { ArbitrationId := 2, Dlc := 2, Data := [20, 21], ExtendedId := false,
              IsFd := true, BitrateSwitch := false }] := by
  refine ⟨rfl, by decide, ?_⟩
  have h := (rx_poll_fifo twoQueued rfl _ _ rfl (.fin 0) (by decide)).2.2
    [⟨0, false⟩, ⟨5, true⟩] rfl
  rw [h]
  decide

/-- C2.  On a mock driver reachable from `NewCanMix` that is not cancelled and
has an empty inbound queue, `InjectRx(id, dlc, data, isFD)` returns, and the
poll `RxFunc(0)` that follows returns a frame with `ArbitrationId = id`,
`IsFd = isFD`, `Dlc = min(dlc, 64)` and `Data` the first `min(dlc, 64)` bytes of
`data` zero-padded (or cut) to 64 bytes; its length is `min(dlc, 64)`, and when
`dlc` and the number of injected bytes are both at least 64 (such as 200 and
200) it holds exactly the first 64 injected bytes. -/
theorem inject_then_poll (m : MockCAN) (hreach : Reachable m) (hdone : m.done = false)
    (hq : m.rxChan.buf = []) (id : Uint32) (dlc : Byte) (data : List Byte) (isFD : Bool)
    (pick : Nat) (o : Sched) :
    ∃ m1 r, m.InjectRx id dlc data isFD pick = .returned m1 ∧
      (RxFunc m1 (.fin 0) o).1 = some r ∧
      r.ArbitrationId = (id.val : Int) ∧ r.IsFd = isFD ∧
      r.Dlc = ((min dlc.val 64 : Nat) : Int) ∧
      r.Data = (data.take 64 ++ List.replicate (64 - data.length) 0).take (min dlc.val 64) ∧
      r.Data.length = min dlc.val 64 ∧
      (64 ≤ dlc.val → 64 ≤ data.length → r.Dlc = 64 ∧ r.Data = data.take 64) := by
  have hinv := reachable_inv m hreach
  have hopen : m.rxChan.closed = false := by rw [hinv.closed_eq, hdone]
  have hroom : m.rxChan.buf.length < m.rxChan.cap := by simp [hq, hinv.cap_eq]
  have hinj := InjectRx_room m hdone hopen hroom id dlc data isFD pick
  have hrx := RxFunc_poll_head (m.withBuf (m.rxChan.buf ++
      [{ ID := id, DLC := (dlc.val : Int), Data := goCopy (makeBytes 64) data, IsFD := isFD }]))
    (by simpa [MockCAN.withBuf] using hdone)
    { ID := id, DLC := (dlc.val : Int), Data := goCopy (makeBytes 64) data, IsFD := isFD } []
    (by simp [MockCAN.withBuf, hq]) (.fin 0) (by decide) o
  have hlen : (goCopy (makeBytes 64) data).length = 64 := by
    rw [goCopy_length]; simp [makeBytes]
  have htp := toTpMessage_nonneg
    { ID := id, DLC := (dlc.val : Int), Data := goCopy (makeBytes 64) data, IsFD := isFD }
    (by simp)
  simp only [hlen] at htp
  have hmin : min (dlc.val : Int) ((64 : Nat) : Int) = ((min dlc.val 64 : Nat) : Int) := by
    omega
  rw [hmin, Int.toNat_ofNat, goCopy_inject] at htp
  have hr := congrArg Prod.fst hrx
  simp only [goCopy_inject] at hr hinj
  rw [htp] at hr
  refine ⟨_, _, hinj, hr, rfl, rfl, rfl, rfl, ?_, ?_⟩
  · simp only [List.length_take, List.length_append, List.length_replicate]
    omega
  · intro h1 h2
    refine ⟨by simp only; omega, ?_⟩
    simp only [Nat.min_eq_right h1]
    rw [List.take_append_of_le_length (by simp; omega), List.take_take]
    simp

/-- Witness of C2: declared length 200 with 200 injected bytes on a new mock
driver. -/
theorem inject_then_poll_witness :
    (NewCanMix .CAN).done = false ∧ (NewCanMix .CAN).rxChan.buf = [] ∧
    ∃ m1 r, (NewCanMix .CAN).InjectRx 291 200 (List.replicate 200 7) true 0 = .returned m1 ∧
      (RxFunc m1 (.fin 0) ⟨0, false⟩).1 = some r ∧
      r.Dlc = 64 ∧ r.Data = (List.replicate 200 7).take 64 := by
  refine ⟨rfl, rfl, ?_⟩
  obtain ⟨m1, r, h1, h2, _, _, _, _, _, h8⟩ :=
    inject_then_poll (NewCanMix .CAN) (Reachable.init .CAN) rfl rfl 291 200
      (List.replicate 200 7) true 0 ⟨0, false⟩
  exact ⟨m1, r, h1, h2, h8 (by decide) (by rw [List.length_replicate]; decide)⟩

/-- C5.  For every Unified Frame with a non-negative declared length and a
64-byte payload buffer, `toTpMessage` returns a frame (never nil, also when the
declared length exceeds 64) with `ArbitrationId = id`, `Dlc = min(dlc, 64)`,
`Data` of length exactly `min(dlc, 64)` equal to the first `min(dlc, 64)` bytes
of the buffer, `IsFd = isFD`, `ExtendedId = false` and `BitrateSwitch = false`. -/
theorem toTpMessage_reference (m : UnifiedCANMessage) (hdlc : 0 ≤ m.DLC)
    (hbuf : m.Data.length = 64) :
    ∃ r, toTpMessage m = some r ∧
      r.ArbitrationId = (m.ID.val : Int) ∧
      r.Dlc = min m.DLC 64 ∧
      (r.Data.length : Int) = min m.DLC 64 ∧
      r.Data = m.Data.take (min m.DLC 64).toNat ∧
      r.IsFd = m.IsFD ∧ r.ExtendedId = false ∧ r.BitrateSwitch = false := by
  have h := toTpMessage_nonneg m hdlc
  rw [hbuf] at h
  refine ⟨_, h, rfl, rfl, ?_, rfl, rfl, rfl, rfl⟩
  simp only [List.length_take, hbuf]
  simp only [Nat.cast_ofNat]
  omega

/-- Witness of C5: declared length 200 over a 64-byte buffer gives `Dlc = 64`. -/
theorem toTpMessage_reference_witness :
    ∃ r, toTpMessage { ID := 5, DLC := 200, Data := List.replicate 64 1, IsFD := true } = some r ∧
      r.Dlc = 64 ∧ r.Data = List.replicate 64 1 ∧ r.IsFd = true := by
  obtain ⟨r, h1, _, h3, _, h5, h6, _, _⟩ :=
    toTpMessage_reference { ID := 5, DLC := 200, Data := List.replicate 64 1, IsFD := true }
      (by decide) (by decide)
  exact ⟨r, h1, by rw [h3]; decide, by rw [h5]; decide, h6⟩

/-- C7.  `NewToomossAdapter(dev)` returns an error and no adapter exactly when
`dev` is nil or `dev.Init()` returns an error, and it returns an adapter exactly
when it returns no error.  On a nil driver no method is called.  When `Init`
fails, the returned error wraps the `Init` error and `Init` is the only method
called (`Start` is not).  When `Init` succeeds, the driver has seen one `Init`,
then one `Start`, then `RxChan`, and the adapter holds the channel `RxChan()`
returned. -/
theorem new_adapter_contract {σ χ : Type} (dev : Option (CANDriver σ χ)) (s : σ) :
    (((NewToomossAdapter dev s).1.2.isSome = true ∧
        (NewToomossAdapter dev s).1.1.isNone = true) ↔
      (dev.isNone = true ∨ ∃ d, dev = some d ∧ (d.Init s).1.isSome = true)) ∧
    ((NewToomossAdapter dev s).1.1.isSome = true ↔ (NewToomossAdapter dev s).1.2 = none) ∧
    (dev.isNone = true → (NewToomossAdapter dev s).2.calls = []) ∧
    (∀ d err, dev = some d → (d.Init s).1 = some err →
      (NewToomossAdapter dev s).1.2.bind GoError.Unwrap = some err ∧
      (NewToomossAdapter dev s).2.calls = [.Init] ∧
      (NewToomossAdapter dev s).2.state = (d.Init s).2) ∧
    (∀ d, dev = some d → (d.Init s).1 = none →
      ∃ a, (NewToomossAdapter dev s).1 = (some a, none) ∧
        a.rxChan = d.RxChan (d.Start (d.Init s).2) ∧
        (NewToomossAdapter dev s).2.calls = [.Init, .Start, .RxChan] ∧
        (NewToomossAdapter dev s).2.state = d.Start (d.Init s).2) := by
  cases dev with
  | none => simp [NewToomossAdapter]
  | some d =>
    rcases hinit : d.Init s with ⟨e, s1⟩
    cases e with
    | none =>
      refine ⟨?_, ?_, ?_, ?_, ?_⟩
      · simp [NewToomossAdapter, hinit]
      · simp [NewToomossAdapter, hinit]
      · simp
      · intro d1 err hd he
        cases hd
        rw [hinit] at he
        cases he
      · intro d1 hd _
        cases hd
        simp [NewToomossAdapter, hinit]
    | some e =>
      refine ⟨?_, ?_, ?_, ?_, ?_⟩
      · simp [NewToomossAdapter, hinit]
      · simp [NewToomossAdapter, hinit]
      · simp
      · intro d1 err hd he
        cases hd
        rw [hinit] at he
        cases he
        simp [NewToomossAdapter, hinit, errorfWrap, GoError.Unwrap]
      · intro d1 hd he
        cases hd
        rw [hinit] at he
        cases he

/-- Witness of C7: over the failing driver the error wraps the `Init` error and
`Start` is not called; over the mock driver an adapter holding the mock
channel is returned after `Init`, `Start`. -/
theorem new_adapter_contract_witness :
    ((NewToomossAdapter (some failingDriver) 0).1.2.bind GoError.Unwrap =
        some (.msg "no device") ∧
      (NewToomossAdapter (some failingDriver) 0).2.calls = [.Init] ∧
      (NewToomossAdapter (some failingDriver) 0).2.state = 1) ∧
    ∃ a, (NewToomossAdapter (some mockDriver) (NewCanMix .CAN)).1 = (some a, none) ∧
      a.rxChan = (NewCanMix .CAN).rxChan ∧
      (NewToomossAdapter (some mockDriver) (NewCanMix .CAN)).2.calls =
        [.Init, .Start, .RxChan] ∧
      (NewToomossAdapter (some mockDriver) (NewCanMix .CAN)).2.state = NewCanMix .CAN :=
  ⟨(new_adapter_contract (some failingDriver) 0).2.2.2.1 failingDriver (.msg "no device")
      rfl rfl,
    (new_adapter_contract (some mockDriver) (NewCanMix .CAN)).2.2.2.2 mockDriver rfl rfl⟩

/-- C8.  `TxFunc(nil)` calls no driver method and leaves the driver unchanged.
For a frame whose arbitration id fits in a signed 32-bit integer, `TxFunc` makes
exactly one `Write` call, with that identifier and the `Data` of the frame; the
driver afterwards is the one `Write` left, whatever error `Write` returned, and
the error shows only as a logged line (nothing is logged exactly when `Write`
returned nil).  `TxFunc` has no result through which an error could reach the
caller. -/
theorem txfunc_fire_and_forget {σ χ : Type} (t : ToomossAdapter σ χ) (s : σ) :
    ((t.TxFunc s none).calls = [] ∧ (t.TxFunc s none).state = s ∧
      (t.TxFunc s none).logged = []) ∧
    ∀ msg : CanMessage, -(2 ^ 31) ≤ msg.ArbitrationId → msg.ArbitrationId < 2 ^ 31 →
      (t.TxFunc s (some msg)).calls = [.Write msg.ArbitrationId msg.Data] ∧
      (t.TxFunc s (some msg)).state = (t.driver.Write s msg.ArbitrationId msg.Data).2 ∧
      ((t.TxFunc s (some msg)).logged = [] ↔
        (t.driver.Write s msg.ArbitrationId msg.Data).1 = none) := by
  refine ⟨⟨rfl, rfl, rfl⟩, ?_⟩
  intro msg h0 h1
  have hid := toInt32_of_range msg.ArbitrationId h0 h1
  simp only [ToomossAdapter.TxFunc, hid]
  rcases hw : t.driver.Write s msg.ArbitrationId msg.Data with ⟨e, s1⟩
  cases e <;> simp

/-- Witness of C8: a frame with identifier 0x7E0 sent through an adapter over
the failing driver; `Write` is called once and its error is only logged. -/
theorem txfunc_fire_and_forget_witness :
    (-(2 ^ 31) ≤ (2016 : Int) ∧ (2016 : Int) < 2 ^ 31) ∧
    (ToomossAdapter.TxFunc { driver := failingDriver, rxChan := () } 0
      (some { ArbitrationId := 2016, Dlc := 2, Data := [1, 2], ExtendedId := false,
              IsFd := false, BitrateSwitch := false })).calls = [.Write 2016 [1, 2]] ∧
    (ToomossAdapter.TxFunc { driver := failingDriver, rxChan := () } 0
      (some { ArbitrationId := 2016, Dlc := 2, Data := [1, 2], ExtendedId := false,
              IsFd := false, BitrateSwitch := false })).state = 100 :=
  ⟨⟨by decide, by decide⟩,
    ((txfunc_fire_and_forget { driver := failingDriver, rxChan := () } 0).2
      { ArbitrationId := 2016, Dlc := 2, Data := [1, 2], ExtendedId := false,
        IsFd := false, BitrateSwitch := false } (by decide) (by decide)).1,
    ((txfunc_fire_and_forget { driver := failingDriver, rxChan := () } 0).2
      { ArbitrationId := 2016, Dlc := 2, Data := [1, 2], ExtendedId := false,
        IsFd := false, BitrateSwitch := false } (by decide) (by decide)).2.1⟩

/-- C9 fails on the code.  After `Stop` the cancellation signal is set and the
channel is closed, so in the `select` of `InjectRx` both cases can proceed: the
cancellation case, and the send, which on a closed channel proceeds by
panicking.  When the send case is chosen (scheduling choice 1) `InjectRx`
panics. -/
theorem inject_after_stop_panics :
    (NewCanMix .CAN).Stop = .returned stoppedEmpty ∧
    stoppedEmpty.done = true ∧ stoppedEmpty.rxChan.closed = true ∧
    stoppedEmpty.InjectRx 1 0 [] false 0 = .returned stoppedEmpty ∧
    stoppedEmpty.InjectRx 1 0 [] false 1 = .panicked := by
  refine ⟨by decide, by decide, by decide, by decide, by decide⟩

/-- C10.  In every state of a mock driver reachable from `NewCanMix` by
`InjectRx`, `RxFunc` and `Stop` steps the inbound queue holds at most 16 frames.
On a reachable driver that is not cancelled and holds 16 frames `InjectRx`
parks without enqueuing, whatever its arguments; once a poll has consumed a
frame the same `InjectRx` returns with its frame enqueued, and once the driver
has been stopped `InjectRx` no longer parks. -/
theorem inbound_queue_bounded :
    (∀ m, Reachable m → m.rxChan.buf.length ≤ 16) ∧
    (∀ m, Reachable m → m.done = false → m.rxChan.buf.length = 16 →
      ∀ id dlc data isFD pick, m.InjectRx id dlc data isFD pick = .blocked) ∧
    (∀ m, Reachable m → m.done = false → m.rxChan.buf.length = 16 →
      ∀ o id dlc data isFD pick, ∃ m2,
        (RxFunc m (.fin 0) o).2.InjectRx id dlc data isFD pick = .returned m2 ∧
        m2.rxChan.buf.length = 16) ∧
    (∀ m m1, Reachable m → m.Stop = .returned m1 →
      ∀ id dlc data isFD pick, m1.InjectRx id dlc data isFD pick ≠ .blocked) := by
  refine ⟨fun m h => (reachable_inv m h).len_le, ?_, ?_, ?_⟩
  · intro m hr hdone hlen id dlc data isFD pick
    have hinv := reachable_inv m hr
    exact InjectRx_full m hdone (by rw [hinv.closed_eq, hdone])
      (by rw [hinv.cap_eq, hlen]) id dlc data isFD pick
  · intro m hr hdone hlen o id dlc data isFD pick
    have hinv := reachable_inv m hr
    have hopen : m.rxChan.closed = false := by rw [hinv.closed_eq, hdone]
    cases hb : m.rxChan.buf with
    | nil => rw [hb] at hlen; simp at hlen
    | cons f rest =>
      have hrest : rest.length = 15 := by
        rw [hb] at hlen
        simpa using hlen
      rw [RxFunc_poll_head m hdone f rest hb (.fin 0) (by decide) o]
      have hroom : (m.withBuf rest).rxChan.buf.length < (m.withBuf rest).rxChan.cap := by
        simp [MockCAN.withBuf, hinv.cap_eq, hrest]
      refine ⟨_, InjectRx_room (m.withBuf rest) (by simpa [MockCAN.withBuf] using hdone)
        (by simpa [MockCAN.withBuf] using hopen) hroom id dlc data isFD pick, ?_⟩
      simp [MockCAN.withBuf, hrest]
  · intro m m1 _ hs id dlc data isFD pick
    have hm1 : m1.done = true ∧ m1.rxChan.closed = true := by
      unfold MockCAN.Stop at hs
      simp only at hs
      split at hs
      · cases hs
      · cases hs
        exact ⟨rfl, rfl⟩
    rcases InjectRx_stopped m1 hm1.1 hm1.2 id dlc data isFD pick with h | h <;>
      rw [h] <;> simp

/-- Witness of C10: sixteen injections fill a new mock driver; the seventeenth
parks. -/
theorem inbound_queue_bounded_witness :
    Reachable fullDriver ∧ fullDriver.done = false ∧ fullDriver.rxChan.buf.length = 16 ∧
    fullDriver.InjectRx 2 8 [1, 2, 3] false 0 = .blocked := by
  have hr : Reachable fullDriver :=
    reachable_run (List.replicate 16 (.inject 1 0 [] false 0)) (NewCanMix .CAN) fullDriver
      (Reachable.init .CAN) (by decide)
  exact ⟨hr, rfl, rfl, inbound_queue_bounded.2.1 fullDriver hr rfl rfl 2 8 [1, 2, 3] false 0⟩

end Drv
